import Mathlib

/-!
Verification of the compression and retrieval engine of the
claude-memory-system repository (files `src/compression-engine.js` and
`src/retrieval-service.js`), via a shallow embedding in Lean.

Modelling conventions, used consistently below:
* JavaScript numbers are modelled as `ℚ` (timestamps as `ℤ` epoch
  milliseconds).  `NaN` results are modelled as `none` of an `Option`
  where they can arise (division `0 / 0` in the similarity function).
* JavaScript strings are Lean `String`; character-level operations are
  performed on `String.data` (a `List Char`) so that everything reduces
  in the kernel.  Lowercasing is modelled on the ASCII range, matching
  the regex character class `\w = [A-Za-z0-9_]` used by the source.
* Fields that may be absent (`undefined`) are `Option`; the JavaScript
  truthiness idioms `x || d` and `x ? a : b` are translated explicitly
  at each use site (`undefined` and `0` and `""` are falsy).
* `async` methods and the fallible graph-store collaborator are
  modelled in the `Except String` monad; a rejected promise is
  `Except.error`; the `try/catch` operation boundaries become `match`
  on that value.
-/

set_option allowUnsafeReducibility true in
attribute [semireducible] Rat.mul Rat.inv Rat.add Rat.sub Rat.ofScientific Rat.neg

namespace CMem

/-! ## Characters and tokenization -/

/-- Character class of the JavaScript regex `\w`, namely `[A-Za-z0-9_]`. -/
def isWordChar (c : Char) : Bool := c.isAlphanum || c == '_'

/-- ASCII lowercasing, modelling `String.prototype.toLowerCase` on the
character range that matters for `\w` tokenization. -/
def lowerChar (c : Char) : Char :=
  if 65 ≤ c.toNat ∧ c.toNat ≤ 90 then Char.ofNat (c.toNat + 32) else c

/-- Accumulator-based splitter: `runsAux p cs acc` returns the maximal
runs of characters satisfying `p` in `acc.reverse ++ cs`.  This models
`split(/\W+/)` (with `p = isWordChar`) followed by dropping empty
pieces, and `split(/\s+/)` likewise. -/
def runsAux (p : Char → Bool) : List Char → List Char → List (List Char)
  | [], acc => if acc.isEmpty then [] else [acc.reverse]
  | c :: cs, acc =>
    if p c then runsAux p cs (c :: acc)
    else if acc.isEmpty then runsAux p cs [] else acc.reverse :: runsAux p cs []

/-- Maximal runs of characters satisfying `p`. -/
def wordRuns (p : Char → Bool) (cs : List Char) : List (List Char) :=
  runsAux p cs []

/-- `content.toLowerCase().split(/\W+/).filter(t => t.length > 0)` from
`_calculateSimilarity`: lowercase, then the maximal word-character runs. -/
def simTokens (s : String) : List (List Char) :=
  wordRuns isWordChar (s.data.map lowerChar)

/-- First-occurrence deduplication with an accumulator of already seen
elements; models the construction `new Set(list)` of JavaScript, whose
iteration order is first-insertion order. -/
def dedupFirstAux {α : Type} [DecidableEq α] : List α → List α → List α
  | [], _ => []
  | a :: as, seen => if a ∈ seen then dedupFirstAux as seen else a :: dedupFirstAux as (a :: seen)

/-- Models `[...new Set(l)]`. -/
def dedupFirst {α : Type} [DecidableEq α] (l : List α) : List α :=
  dedupFirstAux l []

/-! ## Token set similarity (`_calculateSimilarity`) -/

/-- Embedding of `CompressionEngine._calculateSimilarity`.  The source
computes `intersection.size / union.size` with no guard: when both
strings have no tokens the union is empty and the JavaScript division
`0 / 0` yields `NaN`, modelled here as `none`.  A nonempty union gives
`some` of the Jaccard ratio. -/
def _calculateSimilarity (contentA contentB : String) : Option ℚ :=
  let setA := dedupFirst (simTokens contentA)
  let setB := dedupFirst (simTokens contentB)
  let inter := setA.filter (fun x => setB.contains x)
  let union := dedupFirst (setA ++ setB)
  if union.length = 0 then none
  else some ((inter.length : ℚ) / (union.length : ℚ))

/-- The comparison `similarity >= threshold` of the clusterer; a `NaN`
similarity (`none`) compares false, as in JavaScript. -/
def simOK (t : ℚ) (a b : String) : Bool :=
  match _calculateSimilarity a b with
  | none => false
  | some q => decide (t ≤ q)

/-! ## Data model: observations -/

/-- An observation record as consumed by the compression engine and the
retrieval service.  `score` is the field that retrieval scoring writes
with the object spread `{...obs, score}`; inputs carry an arbitrary
(ignored) value there. -/
structure Observation where
  content : String
  category : Option String := none
  confidence : Option ℚ := none
  timestamp : Option ℤ := none
  is_critical : Bool := false
  score : ℚ := 0
  deriving DecidableEq

/-- One element of the `pendingObservations` argument of
`compressObservations`: `{entityName, entityType, observation}`. -/
structure PendingItem where
  entityName : String
  entityType : String
  observation : Observation
  deriving DecidableEq

/-! ## Descending sort

The source sorts with `Array.prototype.sort` and a comparator of the
shape `(a, b) => keyOf(b) - keyOf(a)`, i.e. descending by a numeric
key.  We model this with an insertion sort; the properties we prove
(permutation and pairwise descending order) hold for any correct
implementation of that comparator sort. -/

def insertDesc {α : Type} (key : α → ℚ) (a : α) : List α → List α
  | [] => [a]
  | b :: bs => if key b < key a then a :: b :: bs else b :: insertDesc key a bs

def sortDesc {α : Type} (key : α → ℚ) : List α → List α
  | [] => []
  | a :: as => insertDesc key a (sortDesc key as)

theorem perm_insertDesc {α : Type} (key : α → ℚ) (a : α) (l : List α) :
    (insertDesc key a l).Perm (a :: l) := by
  induction l with
  | nil => simp [insertDesc]
  | cons b bs ih =>
    simp only [insertDesc]
    split
    · exact List.Perm.refl _
    · exact (List.Perm.cons b ih).trans (List.Perm.swap a b bs)

theorem perm_sortDesc {α : Type} (key : α → ℚ) (l : List α) :
    (sortDesc key l).Perm l := by
  induction l with
  | nil => simp [sortDesc]
  | cons a as ih =>
    exact (perm_insertDesc key a (sortDesc key as)).trans (List.Perm.cons a ih)

theorem pairwise_insertDesc {α : Type} (key : α → ℚ) (a : α) (l : List α)
    (h : List.Pairwise (fun x y => key y ≤ key x) l) :
    List.Pairwise (fun x y => key y ≤ key x) (insertDesc key a l) := by
  induction l with
  | nil => simp [insertDesc]
  | cons b bs ih =>
    simp only [insertDesc]
    rcases h with - | ⟨hb, hbs⟩
    split
    · rename_i hlt
      refine List.Pairwise.cons ?_ (List.Pairwise.cons hb hbs)
      intro x hx
      rcases hx with _ | hx
      · exact le_of_lt hlt
      · exact le_trans (hb x (by assumption)) (le_of_lt hlt)
    · rename_i hge
      refine List.Pairwise.cons ?_ (ih hbs)
      intro x hx
      have hx2 : x ∈ a :: bs := (perm_insertDesc key a bs).mem_iff.mp hx
      rcases hx2 with _ | hx2
      · exact le_of_not_lt hge
      · exact hb x (by assumption)

theorem pairwise_sortDesc {α : Type} (key : α → ℚ) (l : List α) :
    List.Pairwise (fun x y => key y ≤ key x) (sortDesc key l) := by
  induction l with
  | nil => simp [sortDesc]
  | cons a as ih => exact pairwise_insertDesc key a (sortDesc key as) ih

theorem length_sortDesc {α : Type} (key : α → ℚ) (l : List α) :
    (sortDesc key l).length = l.length :=
  (perm_sortDesc key l).length_eq

theorem mem_sortDesc {α : Type} (key : α → ℚ) (l : List α) (a : α) :
    a ∈ sortDesc key l ↔ a ∈ l :=
  (perm_sortDesc key l).mem_iff

/-! ## Similarity clustering (`_clusterSimilarObservations`) -/

/-- Fuel-indexed form of the greedy clustering loop.  The source scans
indices left to right; an unprocessed observation seeds a cluster, all
later unprocessed observations whose similarity to the seed reaches the
threshold join it and are marked processed.  Removing the seed and its
matches from the head of the list and recursing on the rest is the same
computation; the fuel (initially the list length, which strictly bounds
the recursion depth) keeps the recursion structural so that it reduces
in the kernel. -/
def clusterGo (t : ℚ) : ℕ → List Observation → List (List Observation)
  | 0, _ => []
  | _ + 1, [] => []
  | fuel + 1, a :: rest =>
    let cluster := a :: rest.filter (fun b => simOK t a.content b.content)
    let remaining := rest.filter (fun b => !(simOK t a.content b.content))
    if 1 < cluster.length then cluster :: clusterGo t fuel remaining
    else clusterGo t fuel remaining

/-- Embedding of `CompressionEngine._clusterSimilarObservations` with
similarity threshold `t`. -/
def _clusterSimilarObservations (t : ℚ) (observations : List Observation) :
    List (List Observation) :=
  clusterGo t observations.length observations

/-- Invariants of the greedy clusterer, for any fuel: every emitted
cluster has at least two members, consists of a seed followed by
members whose similarity to that seed reaches the threshold, and is a
sublist (hence subsequence, in original order) of the input. -/
theorem clusterGo_invariant (t : ℚ) (fuel : ℕ) (l : List Observation) :
    ∀ c ∈ clusterGo t fuel l,
      2 ≤ c.length ∧
      (∃ a rest, c = a :: rest ∧ ∀ b ∈ rest, simOK t a.content b.content = true) ∧
      c.Sublist l := by
  induction fuel generalizing l with
  | zero => intro c hc; simp [clusterGo] at hc
  | succ fuel ih =>
    intro c hc
    cases l with
    | nil => simp [clusterGo] at hc
    | cons a rest =>
      simp only [clusterGo] at hc
      by_cases hlen :
          1 < (a :: rest.filter (fun b => simOK t a.content b.content)).length
      · rw [if_pos hlen] at hc
        rcases List.mem_cons.mp hc with hc | hc
        · subst hc
          refine ⟨hlen, ⟨a, _, rfl, ?_⟩, ?_⟩
          · intro b hb
            exact (List.mem_filter.mp hb).2
          · exact List.Sublist.cons₂ a (List.filter_sublist rest)
        · have h := ih _ c hc
          exact ⟨h.1, h.2.1,
            h.2.2.trans ((List.filter_sublist rest).trans (List.sublist_cons_self a rest))⟩
      · rw [if_neg hlen] at hc
        have h := ih _ c hc
        exact ⟨h.1, h.2.1,
          h.2.2.trans ((List.filter_sublist rest).trans (List.sublist_cons_self a rest))⟩

/-! ## JavaScript falsiness helpers -/

/-- JavaScript `x || d` for an optional string (`undefined` and `""`
are falsy). -/
def jsOrStr (x : Option String) (d : String) : String :=
  match x with
  | none => d
  | some s => if s = "" then d else s

/-- JavaScript `x || d` for an optional number (`undefined` and `0`
are falsy). -/
def jsOrQ (x : Option ℚ) (d : ℚ) : ℚ :=
  match x with
  | none => d
  | some q => if q = 0 then d else q

/-- JavaScript comparison `x < m` where `x` may be `undefined`
(`undefined < m` is false). -/
def jsLtOpt (x : Option ℚ) (m : ℚ) : Bool :=
  match x with
  | none => false
  | some q => decide (q < m)

/-! ## Compression engine configuration -/

/-- The `CompressionEngine` constructor state: the `threshold` argument
(default 5) plus the option object defaults. -/
structure EngineConfig where
  compressionThreshold : ℕ := 5
  similarityThreshold : ℚ := 0.6
  maxObservationAge : ℚ := 7
  preserveCritical : Bool := true
  minConfidence : ℚ := 3
  deriving DecidableEq

/-- An engine constructed with all defaults. -/
def defaultEngineConfig : EngineConfig := {}

/-- The age test `ageInDays > maxObservationAge` of
`_groupObservations`, with `ageInDays = (now - timestamp) / 86400000`.
A missing timestamp parses to an invalid date in the source, making the
age `NaN`, which compares false (the item is kept). -/
def ageExceeds (now : ℤ) (ts : Option ℤ) (maxAge : ℚ) : Bool :=
  match ts with
  | none => false
  | some t => decide (maxAge < ((now - t : ℤ) : ℚ) / 86400000)

/-! ## Grouping (`_groupObservations`) -/

/-- One value of the `groups` object of `_groupObservations`, together
with its key.  The object is modelled as a list of these in insertion
order (JavaScript objects preserve string-key insertion order). -/
structure ObsGroup where
  key : String
  entityName : String
  entityType : String
  category : String
  observations : List Observation
  deriving DecidableEq

/-- The group key  `entityName + ":" + (observation.category || "general")`. -/
def groupKey (it : PendingItem) : String :=
  it.entityName ++ ":" ++ jsOrStr it.observation.category "general"

/-- Append an observation to the group with key `k`, creating the group
at the end if it does not exist yet, exactly as assignment to
`groups[groupKey]` behaves. -/
def pushObs (k : String) (it : PendingItem) : List ObsGroup → List ObsGroup
  | [] =>
    [{ key := k, entityName := it.entityName, entityType := it.entityType,
       category := jsOrStr it.observation.category "general",
       observations := [it.observation] }]
  | g :: gs =>
    if g.key = k then { g with observations := g.observations ++ [it.observation] } :: gs
    else g :: pushObs k it gs

/-- One iteration of the `for` loop of `_groupObservations`: the three
exclusion rules, in source order, then the keyed insertion. -/
def addItem (cfg : EngineConfig) (now : ℤ) (gs : List ObsGroup) (it : PendingItem) :
    List ObsGroup :=
  if cfg.preserveCritical && it.observation.is_critical then gs
  else if jsLtOpt it.observation.confidence cfg.minConfidence then gs
  else if ageExceeds now it.observation.timestamp cfg.maxObservationAge then gs
  else pushObs (groupKey it) it gs

/-- Embedding of `CompressionEngine._groupObservations`.  `now` is the
value of `new Date()` during the call, in epoch milliseconds. -/
def _groupObservations (cfg : EngineConfig) (now : ℤ) (items : List PendingItem) :
    List ObsGroup :=
  items.foldl (addItem cfg now) []

/-- The observations stored under key `k` (`[]` when the key is absent),
the lens through which the grouping is specified. -/
def obsAt : List ObsGroup → String → List Observation
  | [], _ => []
  | g :: gs, k => if g.key = k then g.observations else obsAt gs k

/-! ## Cluster summarization (`_compressCluster`, `_generateSummary`) -/

/-- `content.split(/\W+/).filter(w => w.length > 0)` as used by
`_generateSummary` (no lowercasing there). -/
def contentWords (s : String) : List (List Char) :=
  wordRuns isWordChar s.data

/-- The subject/action/object extraction loop of `_generateSummary`:
for each observation whose content has more than two words, word 0 is a
subject candidate, word 1 an action candidate and words 2..4 object
candidates, each only when longer than three characters. -/
def extractRoles (cluster : List Observation) :
    List (List Char) × List (List Char) × List (List Char) :=
  cluster.foldl
    (fun acc obs =>
      let words := contentWords obs.content
      match words with
      | w0 :: w1 :: _ =>
        if 2 < words.length then
          (acc.1 ++ (if 3 < w0.length then [w0] else []),
           acc.2.1 ++ (if 3 < w1.length then [w1] else []),
           acc.2.2 ++ ((words.take 5).drop 2).filter (fun w => 3 < w.length))
        else acc
      | _ => acc)
    ([], [], [])

/-- Embedding of `CompressionEngine._getMostCommon`: count occurrences
(object keys iterate in first-insertion order) and keep the first entry
with a strictly maximal count; `null` (`none`) on an empty array. -/
def _getMostCommon (arr : List (List Char)) : Option (List Char) :=
  if arr.isEmpty then none
  else
    (((dedupFirst arr).map (fun k => (k, arr.count k))).foldl
      (fun acc e => if acc.1 < e.2 then (e.2, some e.1) else acc)
      ((0 : ℕ), (none : Option (List Char)))).2

/-- JavaScript `x || d` where `x` is the optional word returned by
`_getMostCommon`. -/
def jsOrWord (x : Option (List Char)) (d : String) : String :=
  match x with
  | none => d
  | some w => if w.isEmpty then d else String.mk w

/-- Embedding of `CompressionEngine._generateSummary`. -/
def _generateSummary (cluster : List Observation) : String :=
  let roles := extractRoles cluster
  let mainSubject := jsOrWord (_getMostCommon roles.1) "Subject"
  let mainAction := jsOrWord (_getMostCommon roles.2.1) "performed action"
  let mainObject := jsOrWord (_getMostCommon roles.2.2) "object"
  let summary := mainSubject ++ " " ++ mainAction ++ " " ++ mainObject
  if 1 < cluster.length then
    summary ++ " (observed " ++ Nat.repr cluster.length ++ " times)"
  else summary

/-- A compressed observation as returned by `_compressCluster` (and, for
`temporalCompression`, tagged with a `time_window`). -/
structure CompressedObservation where
  content : String
  source_observations : List String
  confidence : ℤ
  category : String
  timestamp : Option ℤ
  is_critical : Bool
  time_window : Option String := none
  deriving DecidableEq

/-- Sort key for `sort((a, b) => new Date(b.timestamp) - new Date(a.timestamp))`.
An absent timestamp gives an invalid date (`NaN` comparator results,
order unspecified); it is modelled as key `0` and the claims about
timestamps are stated for clusters ordered by this key. -/
def tsKeyQ (o : Observation) : ℚ := ((o.timestamp.getD 0 : ℤ) : ℚ)

/-- Embedding of `CompressionEngine._compressCluster`.  Indexing `[0]`
into an empty sorted cluster is the one way the try block can fail on
well-typed input; the `catch` returns `null`, modelled by `none`. -/
def _compressCluster (cluster : List Observation) (_entityName : String)
    (category : String) : Option CompressedObservation :=
  let sortedCluster := sortDesc tsKeyQ cluster
  match sortedCluster with
  | [] => none
  | first :: _ =>
    some
      { content := _generateSummary sortedCluster
        source_observations := sortedCluster.map (fun o => o.content)
        confidence :=
          round ((sortedCluster.map (fun o => jsOrQ o.confidence 3)).sum /
            (sortedCluster.length : ℚ))
        category := category
        timestamp := first.timestamp
        is_critical := sortedCluster.any (fun o => o.is_critical) }

/-! ## The compression pipeline (`compressObservations`) -/

/-- The per-group body of the cluster loop of `compressObservations`:
compress every cluster that reaches the compression threshold, keeping
non-`null` results. -/
def compressGroup (cfg : EngineConfig) (g : ObsGroup) : List CompressedObservation :=
  (_clusterSimilarObservations cfg.similarityThreshold g.observations).filterMap
    (fun cluster =>
      if cfg.compressionThreshold ≤ cluster.length then
        _compressCluster cluster g.entityName g.category
      else none)

/-- The try-block of `compressObservations`: group, skip groups below
the threshold, compress the clusters of the remaining groups. -/
def compressBody (cfg : EngineConfig) (now : ℤ) (items : List PendingItem) :
    List CompressedObservation :=
  (_groupObservations cfg now items).flatMap (fun g =>
    if g.observations.length < cfg.compressionThreshold then []
    else compressGroup cfg g)

/-- The catch handler of `compressObservations` (and of
`temporalCompression`): any internal failure is converted to the empty
list. -/
def catchToEmpty (x : Except String (List CompressedObservation)) :
    List CompressedObservation :=
  match x with
  | .ok r => r
  | .error _ => []

/-- The try-block as a fallible computation; on well-typed input it is
total, so it always succeeds. -/
def compressObservationsE (cfg : EngineConfig) (now : ℤ) (items : List PendingItem) :
    Except String (List CompressedObservation) :=
  .ok (compressBody cfg now items)

/-- Embedding of `CompressionEngine.compressObservations`, including the
empty-input early return and the operation-boundary catch. -/
def compressObservations (cfg : EngineConfig) (now : ℤ) (items : List PendingItem) :
    List CompressedObservation :=
  if items.isEmpty then [] else catchToEmpty (compressObservationsE cfg now items)

/-! ## Grouping lemmas -/

/-- The exclusion rules of `_groupObservations`, as one predicate (the
conjunction, in source order, of the three keep-conditions). -/
def srcEligible (cfg : EngineConfig) (now : ℤ) (it : PendingItem) : Bool :=
  !(cfg.preserveCritical && it.observation.is_critical) &&
  !(jsLtOpt it.observation.confidence cfg.minConfidence) &&
  !(ageExceeds now it.observation.timestamp cfg.maxObservationAge)

theorem addItem_eq (cfg : EngineConfig) (now : ℤ) (gs : List ObsGroup) (it : PendingItem) :
    addItem cfg now gs it =
      if srcEligible cfg now it then pushObs (groupKey it) it gs else gs := by
  unfold addItem srcEligible
  by_cases h1 : (cfg.preserveCritical && it.observation.is_critical) = true <;>
    by_cases h2 : jsLtOpt it.observation.confidence cfg.minConfidence = true <;>
      by_cases h3 : ageExceeds now it.observation.timestamp cfg.maxObservationAge = true <;>
        simp [h1, h2, h3]

theorem obsAt_pushObs (k : String) (it : PendingItem) (gs : List ObsGroup) (k2 : String) :
    obsAt (pushObs k it gs) k2 =
      if k2 = k then obsAt gs k2 ++ [it.observation] else obsAt gs k2 := by
  induction gs with
  | nil =>
    by_cases h : k2 = k
    · subst h; simp [pushObs, obsAt]
    · have h2 : ¬ k = k2 := fun hx => h hx.symm
      simp [pushObs, obsAt, h, h2]
  | cons g gs ih =>
    by_cases hg : g.key = k
    · have hpush : pushObs k it (g :: gs) =
          { g with observations := g.observations ++ [it.observation] } :: gs := by
        simp [pushObs, hg]
      by_cases h : k2 = g.key
      · subst h
        simp [hpush, obsAt, hg]
      · have h2 : ¬ g.key = k2 := fun hx => h hx.symm
        have h3 : ¬ k2 = k := fun hx => h (hx.trans hg.symm)
        simp [hpush, obsAt, h2, h3]
    · have hpush : pushObs k it (g :: gs) = g :: pushObs k it gs := by
        simp [pushObs, hg]
      by_cases h : g.key = k2
      · have hk2 : ¬ k2 = k := fun he => hg (h.trans he)
        simp [hpush, obsAt, h, hk2]
      · simp [hpush, obsAt, h, ih]

theorem obsAt_foldl (cfg : EngineConfig) (now : ℤ) (items : List PendingItem)
    (gs : List ObsGroup) (k : String) :
    obsAt (items.foldl (addItem cfg now) gs) k =
      obsAt gs k ++
        (items.filter (fun it => srcEligible cfg now it && (groupKey it == k))).map
          (fun it => it.observation) := by
  induction items generalizing gs with
  | nil => simp
  | cons it its ih =>
    rw [List.foldl_cons, addItem_eq, ih]
    by_cases he : srcEligible cfg now it = true
    · rw [if_pos he, obsAt_pushObs]
      by_cases hk : (groupKey it == k) = true
      · have hk2 : k = groupKey it := (beq_iff_eq.mp hk).symm
        rw [if_pos hk2]
        simp [List.filter_cons, he, hk, List.append_assoc]
      · have hk2 : ¬ k = groupKey it := fun h => hk (beq_iff_eq.mpr h.symm)
        rw [if_neg hk2]
        simp [List.filter_cons, he, hk]
    · rw [if_neg he]
      rw [Bool.not_eq_true] at he
      simp [List.filter_cons, he]

/-! ## Compression pipeline lemmas -/

theorem sortDesc_ne_nil {α : Type} (key : α → ℚ) (l : List α) (h : l ≠ []) :
    sortDesc key l ≠ [] := by
  intro hnil
  have := length_sortDesc key l
  rw [hnil] at this
  exact h (List.length_eq_zero.mp this.symm)

theorem _compressCluster_isSome (cluster : List Observation) (name cat : String)
    (h : cluster ≠ []) : (_compressCluster cluster name cat).isSome := by
  unfold _compressCluster
  obtain ⟨first, rest, heq⟩ := List.exists_cons_of_ne_nil (sortDesc_ne_nil tsKeyQ cluster h)
  rw [heq]
  rfl

theorem length_compressGroup_aux (name cat : String) (T : ℕ)
    (L : List (List Observation)) (h : ∀ c ∈ L, c ≠ []) :
    (L.filterMap (fun c => if T ≤ c.length then _compressCluster c name cat else none)).length
      = (L.filter (fun c => T ≤ c.length)).length := by
  induction L with
  | nil => rfl
  | cons c cs ih =>
    have hne : c ≠ [] := h c (List.mem_cons_self c cs)
    have ihh := ih (fun x hx => h x (List.mem_cons_of_mem c hx))
    by_cases hT : T ≤ c.length
    · obtain ⟨r, hr⟩ := Option.isSome_iff_exists.mp (_compressCluster_isSome c name cat hne)
      simp [List.filterMap_cons, List.filter_cons, hT, hr, ihh]
    · simp [List.filterMap_cons, List.filter_cons, hT, ihh]

theorem length_compressGroup (cfg : EngineConfig) (g : ObsGroup) :
    (compressGroup cfg g).length =
      ((_clusterSimilarObservations cfg.similarityThreshold g.observations).filter
        (fun c => cfg.compressionThreshold ≤ c.length)).length := by
  unfold compressGroup
  refine length_compressGroup_aux g.entityName g.category cfg.compressionThreshold _ ?_
  intro c hc
  have h := clusterGo_invariant cfg.similarityThreshold g.observations.length g.observations c hc
  intro hceq
  rw [hceq] at h
  simp at h

theorem compressObservations_eq_filter (cfg : EngineConfig) (now : ℤ)
    (items : List PendingItem) :
    compressObservations cfg now items =
      ((_groupObservations cfg now items).filter
        (fun g => !(g.observations.length < cfg.compressionThreshold))).flatMap
        (compressGroup cfg) := by
  cases items with
  | nil => rfl
  | cons it its =>
    show compressBody cfg now (it :: its) = _
    unfold compressBody
    generalize _groupObservations cfg now (it :: its) = gs
    induction gs with
    | nil => rfl
    | cons g gs ih =>
      by_cases hg : g.observations.length < cfg.compressionThreshold <;>
        simp [List.flatMap_cons, List.filter_cons, hg, ih]

/-! ## Claims C1 to C4 -/

/-- C1: the similarity contract claims the function returns 0 (a real
number in [0,1]) when both inputs contain no tokens.  The source
computes `intersection.size / union.size` with no guard, so on two
empty (or token-free) strings the JavaScript division `0 / 0` yields
`NaN`, not `0`: the code diverges from its own documented return range
(0 to 1).  This theorem evaluates the embedded code at the failing
inputs; `none` is the model of `NaN`. -/
theorem similarity_zero_div_zero_nan :
    _calculateSimilarity "" "" = none ∧ _calculateSimilarity "?!" " - " = none := by
  decide

/-- Concrete observations for the clustering claims: `ntObsA` and
`ntObsB` are similar (2/3), `ntObsB` and `ntObsC` are similar (2/3),
but `ntObsA` and `ntObsC` are not (1/3 below the 0.6 threshold). -/
def ntObsA : Observation := { content := "x y" }

def ntObsB : Observation := { content := "x y z" }

def ntObsC : Observation := { content := "y z" }

/-- C3: every cluster the greedy clusterer emits has at least two
members; each non-seed member has similarity at least the threshold to
the seed (the first element); the cluster is a sublist of the input, in
original input order.  The closed conjunct exhibits the greedy,
seed-based (non-transitive-closure) membership: `ntObsC` is similar to
the member `ntObsB` but not to the seed `ntObsA`, and is left out. -/
theorem clustering_seed_invariants :
    (∀ (t : ℚ) (obs : List Observation), ∀ c ∈ _clusterSimilarObservations t obs,
        2 ≤ c.length ∧
        (∃ a rest, c = a :: rest ∧ ∀ b ∈ rest, simOK t a.content b.content = true) ∧
        c.Sublist obs) ∧
    (_clusterSimilarObservations 0.6 [ntObsA, ntObsB, ntObsC] = [[ntObsA, ntObsB]] ∧
      simOK 0.6 ntObsB.content ntObsC.content = true ∧
      simOK 0.6 ntObsA.content ntObsC.content = false) := by
  constructor
  · intro t obs c hc
    exact clusterGo_invariant t obs.length obs c hc
  · refine ⟨by decide, by decide, by decide⟩

/-- Witness for C3 at a concrete input: the emitted cluster
`[ntObsA, ntObsB]` of the three-element run satisfies the invariants. -/
theorem clustering_seed_invariants_witness :
    2 ≤ ([ntObsA, ntObsB] : List Observation).length ∧
    (∃ a rest, ([ntObsA, ntObsB] : List Observation) = a :: rest ∧
      ∀ b ∈ rest, simOK 0.6 a.content b.content = true) ∧
    ([ntObsA, ntObsB] : List Observation).Sublist [ntObsA, ntObsB, ntObsC] :=
  clustering_seed_invariants.1 0.6 [ntObsA, ntObsB, ntObsC] [ntObsA, ntObsB] (by decide)

/-- C4: the grouped observations under any key are exactly the input
observations surviving the three exclusion rules (critical preservation,
minimum confidence, maximum age, in source order) whose computed key
`entityName + ":" + (category || "general")` matches; the defaults are
minConfidence 3, maxObservationAge 7 days, compressionThreshold 5; and
the compression output comes only from groups whose eligible-observation
count reaches the compression threshold. -/
theorem grouping_filter_spec :
    (∀ (cfg : EngineConfig) (now : ℤ) (items : List PendingItem) (k : String),
      obsAt (_groupObservations cfg now items) k =
        (items.filter (fun it =>
          !(cfg.preserveCritical && it.observation.is_critical) &&
          !(jsLtOpt it.observation.confidence cfg.minConfidence) &&
          !(ageExceeds now it.observation.timestamp cfg.maxObservationAge) &&
          (groupKey it == k))).map (fun it => it.observation)) ∧
    defaultEngineConfig.minConfidence = 3 ∧
    defaultEngineConfig.maxObservationAge = 7 ∧
    defaultEngineConfig.compressionThreshold = 5 ∧
    (∀ (cfg : EngineConfig) (now : ℤ) (items : List PendingItem),
      compressObservations cfg now items =
        ((_groupObservations cfg now items).filter
          (fun g => !(g.observations.length < cfg.compressionThreshold))).flatMap
          (compressGroup cfg)) := by
  refine ⟨?_, rfl, rfl, rfl, compressObservations_eq_filter⟩
  intro cfg now items k
  have h := obsAt_foldl cfg now items [] k
  simp only [_groupObservations]
  rw [h]
  simp only [obsAt, List.nil_append]
  apply congrArg
  apply List.filter_congr
  intro it _
  simp [srcEligible, Bool.and_assoc]

/-- C2 counterexample input: five eligible observations of one entity,
two of which are mutually similar and three of which match nothing. -/
def cxcObs (s : String) : Observation :=
  { content := s, confidence := some 5, timestamp := some 0 }

/-- Pending items for the C2 counterexample. -/
def cxcItems : List PendingItem :=
  ["alpha beta", "alpha beta", "cccc1", "dddd1", "eeee1"].map
    (fun s => { entityName := "E", entityType := "T", observation := cxcObs s })

/-- C2 is false as stated: with the default configuration
(compressionThreshold 5) the group "E:general" survives filtering with
five eligible observations and the clusterer emits a cluster of size 2,
yet `compressObservations` emits nothing, because the source also
requires `cluster.length >= compressionThreshold` for each cluster —
clusters of size 2, 3 or 4 are discarded, not only clusters of size 1. -/
theorem subthreshold_cluster_discarded :
    5 ≤ (obsAt (_groupObservations defaultEngineConfig 0 cxcItems) "E:general").length ∧
    (_clusterSimilarObservations defaultEngineConfig.similarityThreshold
      (obsAt (_groupObservations defaultEngineConfig 0 cxcItems) "E:general")).map
        (fun c => c.length) = [2] ∧
    compressObservations defaultEngineConfig 0 cxcItems = [] := by
  refine ⟨by decide, by decide, by decide⟩

/-- The concrete example of the claim (thresholds 2 and 0.2). -/
def exObs1 : Observation :=
  { content := "User asked about memory", confidence := some 5,
    category := some "goal", timestamp := some 0 }

/-- Second observation of the concrete example. -/
def exObs2 : Observation :=
  { content := "User questioned about storage", confidence := some 5,
    category := some "goal", timestamp := some 1 }

/-- Pending items of the concrete example of the claim. -/
def exItems : List PendingItem :=
  [{ entityName := "User", entityType := "Person", observation := exObs1 },
   { entityName := "User", entityType := "Person", observation := exObs2 }]

/-- Engine of the concrete example: similarityThreshold 0.2 and
compressionThreshold 2. -/
def exCfg : EngineConfig := { compressionThreshold := 2, similarityThreshold := 0.2 }

/-- C2 amended: in every group that survives filtering, each cluster
whose size reaches `compressionThreshold` is reduced to exactly one
compressed observation, and all smaller clusters (not only singletons)
are discarded — the output length is the number of large-enough
clusters of large-enough groups.  The concrete example of the claim
(thresholds 0.2 and 2) does yield exactly one compressed observation
whose `source_observations` has length 2. -/
theorem compression_cluster_count :
    (∀ (cfg : EngineConfig) (now : ℤ) (items : List PendingItem),
      (compressObservations cfg now items).length =
        (((_groupObservations cfg now items).filter
          (fun g => !(g.observations.length < cfg.compressionThreshold))).map
          (fun g =>
            ((_clusterSimilarObservations cfg.similarityThreshold g.observations).filter
              (fun c => cfg.compressionThreshold ≤ c.length)).length)).sum) ∧
    (compressObservations exCfg 0 exItems).map
      (fun r => r.source_observations.length) = [2] := by
  constructor
  · intro cfg now items
    rw [compressObservations_eq_filter]
    rw [List.length_flatMap]
    congr 1
    apply List.map_congr_left
    intro g _
    exact length_compressGroup cfg g
  · decide

/-! ## Claim C5: the cluster summarizer -/

/-- C5: for a nonempty cluster none of whose members carries the
(unreachable through the pipeline filter) confidence value 0, the
summarizer returns a value rather than failing, and that value has: the
timestamp of a most-recent member; confidence the half-up rounding
(`round x = ⌊x + 1/2⌋`, exactly `Math.round` on these values) of the
mean member confidence with absent confidences read as 3; criticality
the disjunction of the member flags; `source_observations` the member
contents listed most-recent first (the timestamp-descending order of
the cluster); and a content ending in `" (observed {n} times)"` when the
cluster has more than one member.  The `Option` codomain of
`_compressCluster` is the `null`-on-internal-failure boundary. -/
theorem compressCluster_spec (cluster : List Observation) (name cat : String)
    (hne : cluster ≠ [])
    (hc0 : ∀ o ∈ cluster, o.confidence ≠ some 0) :
    ∃ r, _compressCluster cluster name cat = some r ∧
      (∃ m ∈ cluster, r.timestamp = m.timestamp ∧ ∀ o ∈ cluster, tsKeyQ o ≤ tsKeyQ m) ∧
      r.confidence =
        round ((cluster.map (fun o => o.confidence.getD 3)).sum / (cluster.length : ℚ)) ∧
      (r.is_critical = true ↔ ∃ o ∈ cluster, o.is_critical = true) ∧
      r.source_observations = (sortDesc tsKeyQ cluster).map (fun o => o.content) ∧
      List.Pairwise (fun a b => tsKeyQ b ≤ tsKeyQ a) (sortDesc tsKeyQ cluster) ∧
      (sortDesc tsKeyQ cluster).Perm cluster ∧
      (1 < cluster.length →
        ∃ p, r.content = p ++ " (observed " ++ Nat.repr cluster.length ++ " times)") := by
  obtain ⟨first, rest, heq⟩ :=
    List.exists_cons_of_ne_nil (sortDesc_ne_nil tsKeyQ cluster hne)
  have hperm : (sortDesc tsKeyQ cluster).Perm cluster := perm_sortDesc tsKeyQ cluster
  have hpair := pairwise_sortDesc tsKeyQ cluster
  have hlen : (first :: rest).length = cluster.length := by
    rw [← heq]; exact hperm.length_eq
  refine ⟨{ content := _generateSummary (first :: rest),
            source_observations := (first :: rest).map (fun o => o.content),
            confidence := round (((first :: rest).map (fun o => jsOrQ o.confidence 3)).sum /
              ((first :: rest).length : ℚ)),
            category := cat,
            timestamp := first.timestamp,
            is_critical := (first :: rest).any (fun o => o.is_critical) },
          ?_, ?_, ?_, ?_, ?_, hpair, hperm, ?_⟩
  · simp only [_compressCluster, heq]
  · refine ⟨first, ?_, rfl, ?_⟩
    · exact hperm.mem_iff.mp (heq ▸ List.mem_cons_self first rest)
    · intro o ho
      have ho2 : o ∈ first :: rest := heq ▸ hperm.mem_iff.mpr ho
      rcases List.mem_cons.mp ho2 with h | h
      · exact le_of_eq (congrArg tsKeyQ h)
      · have hp := hpair
        rw [heq] at hp
        exact (List.pairwise_cons.mp hp).1 o h
  · show round (((first :: rest).map (fun o => jsOrQ o.confidence 3)).sum /
        (((first :: rest).length : ℕ) : ℚ)) = _
    rw [← heq]
    have hsum : ((sortDesc tsKeyQ cluster).map (fun o => jsOrQ o.confidence 3)).sum =
        (cluster.map (fun o => o.confidence.getD 3)).sum := by
      have h1 : ((sortDesc tsKeyQ cluster).map (fun o => jsOrQ o.confidence 3)).sum =
          (cluster.map (fun o => jsOrQ o.confidence 3)).sum :=
        (hperm.map _).sum_eq
      rw [h1]
      apply congrArg
      apply List.map_congr_left
      intro o ho
      cases hoc : o.confidence with
      | none => rfl
      | some q =>
        have hq : q ≠ 0 := by
          intro hq0
          exact hc0 o ho (by rw [hoc, hq0])
        simp [jsOrQ, hq]
    rw [hsum, length_sortDesc]
  · show ((first :: rest).any (fun o => o.is_critical)) = true ↔ _
    rw [← heq, List.any_eq_true]
    constructor
    · rintro ⟨o, ho, hcrit⟩
      exact ⟨o, hperm.mem_iff.mp ho, hcrit⟩
    · rintro ⟨o, ho, hcrit⟩
      exact ⟨o, hperm.mem_iff.mpr ho, hcrit⟩
  · show (first :: rest).map (fun o => o.content) = _
    rw [heq]
  · intro hlarge
    show ∃ p, _generateSummary (first :: rest) = _
    unfold _generateSummary
    have hl2 : 1 < (first :: rest).length := hlen ▸ hlarge
    rw [if_pos hl2, hlen]
    exact ⟨_, rfl⟩

/-- First member of the C5 witness cluster. -/
def wObs1 : Observation :=
  { content := "Alice greeted everyone warmly today", confidence := some 4,
    timestamp := some 1000, is_critical := true }

/-- Second member of the C5 witness cluster (absent confidence). -/
def wObs2 : Observation :=
  { content := "Alice greeted people quickly", confidence := none,
    timestamp := some 0 }

/-- Witness for C5: the summarizer contract instantiated on a concrete
two-observation cluster with mixed present/absent confidences. -/
theorem compressCluster_spec_witness :
    ∃ r, _compressCluster [wObs1, wObs2] "Alice" "behavior" = some r ∧
      (∃ m ∈ [wObs1, wObs2], r.timestamp = m.timestamp ∧
        ∀ o ∈ [wObs1, wObs2], tsKeyQ o ≤ tsKeyQ m) ∧
      r.confidence =
        round ((([wObs1, wObs2].map (fun o => o.confidence.getD 3)).sum) /
          (([wObs1, wObs2] : List Observation).length : ℚ)) ∧
      (r.is_critical = true ↔ ∃ o ∈ [wObs1, wObs2], o.is_critical = true) ∧
      r.source_observations = (sortDesc tsKeyQ [wObs1, wObs2]).map (fun o => o.content) ∧
      List.Pairwise (fun a b => tsKeyQ b ≤ tsKeyQ a) (sortDesc tsKeyQ [wObs1, wObs2]) ∧
      (sortDesc tsKeyQ [wObs1, wObs2]).Perm [wObs1, wObs2] ∧
      (1 < ([wObs1, wObs2] : List Observation).length →
        ∃ p, r.content = p ++ " (observed " ++
          Nat.repr ([wObs1, wObs2] : List Observation).length ++ " times)") :=
  compressCluster_spec [wObs1, wObs2] "Alice" "behavior" (by decide) (by decide)

/-! ## Retrieval service: data model -/

/-- An entity of the knowledge graph. -/
structure Entity where
  name : String
  entityType : String := ""
  observations : List Observation := []
  deriving DecidableEq

/-- The `attributes` object of a relation (only the fields the
retrieval service reads). -/
structure RelationAttributes where
  is_critical : Bool := false
  time : Option ℤ := none
  deriving DecidableEq

/-- A relation of the knowledge graph.  The source fields `from` and
`to` are Lean keywords and are rendered `fromName` and `toName`. -/
structure Relation where
  fromName : String
  toName : String
  relationType : String := ""
  attributes : Option RelationAttributes := none
  deriving DecidableEq

/-- The factor-score breakdown `scores` attached to a scored entity. -/
structure ScoreParts where
  relevance : ℚ := 0
  recency : ℚ := 0
  confidence : ℚ := 0
  deriving DecidableEq

/-- An entity with the `score` (and `scores`) fields written by
`_scoreEntities` via object spread. -/
structure ScoredEntity extends Entity where
  score : ℚ := 0
  scores : ScoreParts := {}
  deriving DecidableEq

/-- A relation with the `score` field written by `_scoreRelations`. -/
structure ScoredRelation extends Relation where
  score : ℚ := 0
  deriving DecidableEq

/-- The answer object of `knowledgeGraph.search`; the source guards
`if (results && results.entities)`, so both levels may be absent. -/
structure SearchAnswer where
  entities : Option (List Entity) := none
  deriving DecidableEq

/-- The answer object of `knowledgeGraph.exportGraph`. -/
structure Graph where
  entities : List Entity := []
  relations : List Relation := []
  deriving DecidableEq

/-- The external graph collaborator: four awaited read operations, each
of which may fail (`Except.error` models a rejected promise). -/
structure KnowledgeGraph where
  getEntity : String → Except String (Option Entity)
  search : String → Except String (Option SearchAnswer)
  getEntityRelations : String → Except String (List Relation)
  exportGraph : Unit → Except String Graph

/-- An error-free graph collaborator, liftable to `KnowledgeGraph`. -/
structure PureKnowledgeGraph where
  getEntity : String → Option Entity := fun _ => none
  search : String → Option SearchAnswer := fun _ => none
  getEntityRelations : String → List Relation := fun _ => []
  graph : Graph := {}

/-- Lift a pure collaborator into the fallible interface. -/
def liftKG (p : PureKnowledgeGraph) : KnowledgeGraph :=
  { getEntity := fun n => .ok (p.getEntity n)
    search := fun q => .ok (p.search q)
    getEntityRelations := fun n => .ok (p.getEntityRelations n)
    exportGraph := fun _ => .ok p.graph }

/-- The scoring weight factors. -/
structure Weights where
  recency : ℚ := 0.3
  confidence : ℚ := 0.3
  relevance : ℚ := 0.4
  deriving DecidableEq

/-- The `RetrievalService` options.  The per-call merge
`{...this.options, ...options}` is modelled by passing the merged
record directly. -/
structure RetrievalOptions where
  maxEntities : ℕ := 10
  maxObservationsPerEntity : ℕ := 5
  maxRelations : ℕ := 20
  minConfidence : ℚ := 3
  recencyWindow : ℚ := 30
  weights : Weights := {}
  deriving DecidableEq

/-- A service constructed with all defaults. -/
def defaultRetrievalOptions : RetrievalOptions := {}

/-! ## Keyword extraction -/

/-- The fixed stop-word list of `_isStopWord`. -/
def stopWords : List String :=
  ["the", "and", "are", "for", "was", "that", "this", "with", "have", "from",
   "what", "which", "when", "where", "who", "will", "would", "there", "their",
   "about", "should", "could", "been", "more", "very", "some", "other", "then"]

/-- Embedding of `RetrievalService._isStopWord`. -/
def _isStopWord (w : String) : Bool := stopWords.contains w

/-- Embedding of `RetrievalService._extractKeywords` for a string
context (an object context is first serialized in the source; the
claims quantify over the resulting text).  Lowercase, replace
non-word-non-space characters by spaces, split on whitespace, drop
short and stop words, rank the distinct words by descending frequency
(first-seen order preserved by the counting object) and keep the top
ten. -/
def _extractKeywords (context : String) : List String :=
  let cleaned := (context.data.map lowerChar).map
    (fun c => if isWordChar c || c.isWhitespace then c else ' ')
  let words := (wordRuns (fun c => !c.isWhitespace) cleaned).map String.mk
  let tokens := words.filter (fun w => 3 < w.length && !_isStopWord w)
  (sortDesc (fun w => (tokens.count w : ℚ)) (dedupFirst tokens)).take 10

/-! ## Candidate gathering -/

/-- Name-deduplication with a seen-name accumulator, the shape of
`_removeDuplicateEntities`. -/
def removeDupAux : List Entity → List String → List Entity
  | [], _ => []
  | e :: es, seen =>
    if seen.contains e.name then removeDupAux es seen
    else e :: removeDupAux es (e.name :: seen)

/-- Embedding of `RetrievalService._removeDuplicateEntities`. -/
def _removeDuplicateEntities (entities : List Entity) : List Entity :=
  removeDupAux entities []

/-- Boolean prefix test on character lists. -/
def isPrefixB : List Char → List Char → Bool
  | [], _ => true
  | _ :: _, [] => false
  | a :: as, b :: bs => a == b && isPrefixB as bs

/-- Boolean substring test `hay.includes(needle)` on character lists. -/
def containsSub (hay needle : List Char) : Bool :=
  match hay with
  | [] => needle.isEmpty
  | _ :: rest => isPrefixB needle hay || containsSub rest needle

/-- Rendering of `JSON.stringify(observation)` restricted to the fields
of the model; used only as the haystack of the keyword relevance
match (string escaping and number formatting are not modelled; no
claim depends on relevance values). -/
def obsJson (o : Observation) : String :=
  "\x7b\"content\":\"" ++ o.content ++ "\",\"category\":\"" ++
    (match o.category with | none => "" | some c => c) ++ "\"\x7d"

/-- Rendering of `JSON.stringify(entity)`, same caveats as `obsJson`. -/
def entityJson (e : Entity) : String :=
  "\x7b\"name\":\"" ++ e.name ++ "\",\"entityType\":\"" ++ e.entityType ++
    "\",\"observations\":[" ++
    String.join ((e.observations.map obsJson).intersperse ",") ++ "]\x7d"

/-! ## Scoring -/

/-- Embedding of `RetrievalService._calculateRelevanceScore`: the share
of keywords occurring as substrings of the lowercased serialized
entity; 0 with no keywords. -/
def _calculateRelevanceScore (e : Entity) (keywords : List String) : ℚ :=
  let entityString := (entityJson e).data.map lowerChar
  let matchCount :=
    (keywords.filter (fun k => containsSub entityString (k.data.map lowerChar))).length
  if 0 < keywords.length then (matchCount : ℚ) / (keywords.length : ℚ) else 0

/-- The timestamps considered by `_calculateRecencyScore`: each
observation contributes `new Date(timestamp).getTime()` when the
timestamp is truthy and `0` otherwise, and only strictly positive
values are kept. -/
def validTimestamps (e : Entity) : List ℤ :=
  (e.observations.map (fun o => match o.timestamp with | none => 0 | some t => t)).filter
    (fun t => decide (0 < t))

/-- `Math.max(...timestamps)` on a list known to be nonempty at the
call site. -/
def maxListInt : List ℤ → ℤ
  | [] => 0
  | [t] => t
  | t :: ts => max t (maxListInt ts)

/-- Embedding of `RetrievalService._calculateRecencyScore`:
`max(0, 1 - daysSince / recencyWindow)` from the most recent positive
observation timestamp, 0 for an entity with no observations or no
(positive) timestamps. -/
def _calculateRecencyScore (opts : RetrievalOptions) (now : ℤ) (e : Entity) : ℚ :=
  if e.observations.isEmpty then 0
  else
    let timestamps := validTimestamps e
    if timestamps.isEmpty then 0
    else
      let mostRecent := maxListInt timestamps
      let daysSince := ((now - mostRecent : ℤ) : ℚ) / 86400000
      max 0 (1 - daysSince / opts.recencyWindow)

/-- Embedding of `RetrievalService._calculateConfidenceScore`: mean of
the positive observation confidences (`confidence || 0`, then keep
positive), normalized by 5; 0 when there are none. -/
def _calculateConfidenceScore (e : Entity) : ℚ :=
  if e.observations.isEmpty then 0
  else
    let confidences :=
      (e.observations.map (fun o => jsOrQ o.confidence 0)).filter (fun c => decide (0 < c))
    if confidences.isEmpty then 0
    else (confidences.sum / (confidences.length : ℚ)) / 5

/-- Embedding of `RetrievalService._scoreEntities`: the weighted sum of
the three factor scores, with the breakdown attached. -/
def _scoreEntities (opts : RetrievalOptions) (now : ℤ) (entities : List Entity)
    (keywords : List String) : List ScoredEntity :=
  entities.map (fun e =>
    let relevanceScore := _calculateRelevanceScore e keywords
    let recencyScore := _calculateRecencyScore opts now e
    let confidenceScore := _calculateConfidenceScore e
    { toEntity := e
      score := opts.weights.relevance * relevanceScore +
        opts.weights.recency * recencyScore +
        opts.weights.confidence * confidenceScore
      scores := { relevance := relevanceScore, recency := recencyScore,
                  confidence := confidenceScore } })

/-- Embedding of `RetrievalService._scoreRelations`: base 1.0 when both
endpoints are top entities and 0.5 otherwise, +0.3 for a critical
relation, plus up to +0.2 decayed linearly over the recency window. -/
def _scoreRelations (opts : RetrievalOptions) (now : ℤ) (relations : List Relation)
    (topEnts : List ScoredEntity) : List ScoredRelation :=
  let entityNames := topEnts.map (fun e => e.name)
  relations.map (fun rel =>
    let connects := entityNames.contains rel.fromName && entityNames.contains rel.toName
    let base : ℚ := if connects then 1 else 0.5
    let critBoost : ℚ :=
      match rel.attributes with
      | some a => if a.is_critical then 0.3 else 0
      | none => 0
    let recencyBoost : ℚ :=
      match rel.attributes with
      | some a =>
        match a.time with
        | some tm => max 0 (0.2 * (1 - (((now - tm : ℤ) : ℚ) / 86400000) / opts.recencyWindow))
        | none => 0
      | none => 0
    { toRelation := rel, score := base + critBoost + recencyBoost })

/-- The per-observation scoring step of `_filterAndSortObservations`,
writing the `score` field of the observation spread. -/
def scoreObservation (opts : RetrievalOptions) (now : ℤ) (keywords : List String)
    (o : Observation) : Observation :=
  let relevanceScore : ℚ :=
    ((keywords.filter (fun k =>
        !(o.content == "") &&
          containsSub (o.content.data.map lowerChar) (k.data.map lowerChar))).length : ℚ) /
      ((max 1 keywords.length : ℕ) : ℚ)
  let recencyScore : ℚ :=
    match o.timestamp with
    | none => 0
    | some t => max 0 (1 - (((now - t : ℤ) : ℚ) / 86400000) / opts.recencyWindow)
  let confidenceScore : ℚ := jsOrQ o.confidence 0 / 5
  let criticalBonus : ℚ := if o.is_critical then 0.5 else 0
  { o with score :=
      opts.weights.relevance * relevanceScore +
      opts.weights.recency * recencyScore +
      opts.weights.confidence * confidenceScore +
      criticalBonus }

/-- Embedding of `RetrievalService._filterAndSortObservations`: drop
observations with `(confidence || 0)` below the minimum, score the
rest, sort by score descending and truncate. -/
def _filterAndSortObservations (opts : RetrievalOptions) (now : ℤ)
    (keywords : List String) (observations : List Observation) : List Observation :=
  if observations.isEmpty then []
  else
    let filteredObservations :=
      observations.filter (fun o => decide (opts.minConfidence ≤ jsOrQ o.confidence 0))
    let scoredObservations := filteredObservations.map (scoreObservation opts now keywords)
    (sortDesc (fun o => o.score) scoredObservations).take opts.maxObservationsPerEntity

/-! ## Retrieval operations -/

/-- One step of the entity-fetch loop: look a name up and keep the
entity when found. -/
def getEntityStep (kg : KnowledgeGraph) (acc : List Entity) (n : String) :
    Except String (List Entity) := do
  let e ← kg.getEntity n
  match e with
  | some ent => pure (acc ++ [ent])
  | none => pure acc

/-- The entity-fetch loop over explicit target names: `getEntity` each
name in order, keeping the found ones. -/
def getEntitiesLoop (kg : KnowledgeGraph) (names : List String) :
    Except String (List Entity) :=
  names.foldlM (getEntityStep kg) []

/-- The keyword-search loop of `retrieveRelevantMemories`: concatenate
`results.entities` of each search answer that has them. -/
def searchLoop (kg : KnowledgeGraph) (keywords : List String) :
    Except String (List Entity) :=
  keywords.foldlM
    (fun acc k => do
      let r ← kg.search k
      match r with
      | some res =>
        match res.entities with
        | some l => pure (acc ++ l)
        | none => pure acc
      | none => pure acc)
    []

/-- The relation-gathering loop over the top entities. -/
def relationsLoop (kg : KnowledgeGraph) (ents : List ScoredEntity) :
    Except String (List Relation) :=
  ents.foldlM
    (fun acc e => do
      let rs ← kg.getEntityRelations e.name
      pure (acc ++ rs))
    []

/-- The result object of `retrieveRelevantMemories` (the nested
`context.retrievalOptions` echo is omitted; `keywords` is kept). -/
structure RetrievalResult where
  entities : List ScoredEntity := []
  relations : List ScoredRelation := []
  keywords : List String := []
  error : Option String := none
  deriving DecidableEq

/-- Rank the scored entities by total score descending and truncate to
`maxEntities`. -/
def topEntities (opts : RetrievalOptions) (now : ℤ) (keywords : List String)
    (entities : List Entity) : List ScoredEntity :=
  (sortDesc (fun e => e.score) (_scoreEntities opts now entities keywords)).take
    opts.maxEntities

/-- The pure tail of `retrieveRelevantMemories` once the entities and
their relations are fetched: rank and truncate both, and filter/sort
each kept entity's observations. -/
def assembleRelevant (opts : RetrievalOptions) (now : ℤ) (keywords : List String)
    (entities : List Entity) (relations : List Relation) : RetrievalResult :=
  let top := topEntities opts now keywords entities
  let topRelations :=
    (sortDesc (fun r => r.score) (_scoreRelations opts now relations top)).take
      opts.maxRelations
  { entities := top.map (fun e =>
      { e with observations := _filterAndSortObservations opts now keywords e.observations })
    relations := topRelations
    keywords := keywords }

/-- The try-block of `retrieveRelevantMemories`: keyword extraction,
candidate gathering (explicit targets, or search plus deduplication),
relation gathering for the top entities, then the pure assembly. -/
def retrieveRelevantBody (opts : RetrievalOptions) (now : ℤ) (kg : KnowledgeGraph)
    (context : String) (targetEntities : List String) : Except String RetrievalResult :=
  match (if 0 < targetEntities.length then getEntitiesLoop kg targetEntities
         else Except.map _removeDuplicateEntities (searchLoop kg (_extractKeywords context))) with
  | .error e => .error e
  | .ok entities =>
    match relationsLoop kg (topEntities opts now (_extractKeywords context) entities) with
    | .error e => .error e
    | .ok relations =>
      .ok (assembleRelevant opts now (_extractKeywords context) entities relations)

/-- Embedding of `RetrievalService.retrieveRelevantMemories`, catch
boundary included: any internal failure degrades to empty lists plus an
`error` field. -/
def retrieveRelevantMemories (opts : RetrievalOptions) (now : ℤ) (kg : KnowledgeGraph)
    (context : String) (targetEntities : List String) : RetrievalResult :=
  match retrieveRelevantBody opts now kg context targetEntities with
  | .ok r => r
  | .error msg => { entities := [], relations := [], error := some msg }

/-- Entity gathering common to the specialized modes: explicit names
through `getEntity`, otherwise all entities of the exported graph. -/
def fetchEntities (kg : KnowledgeGraph) (names : List String) :
    Except String (List Entity) :=
  if 0 < names.length then getEntitiesLoop kg names
  else do
    let g ← kg.exportGraph ()
    pure g.entities

/-- The result object of `retrieveByCategory`. -/
structure CategoryResult where
  category : String
  entities : List Entity := []
  error : Option String := none
  deriving DecidableEq

/-- The try-block of `retrieveByCategory`: keep each entity's
observations of the requested category, drop entities left empty, then
apply the standard observation filtering/sorting with no keywords. -/
def retrieveByCategoryBody (opts : RetrievalOptions) (now : ℤ) (kg : KnowledgeGraph)
    (category : String) (entityNames : List String) : Except String CategoryResult := do
  let entities ← fetchEntities kg entityNames
  let filteredEntities :=
    (entities.map (fun e =>
      { e with observations := e.observations.filter (fun o => o.category == some category) })).filter
      (fun e => !e.observations.isEmpty)
  pure
    { category := category
      entities := filteredEntities.map (fun e =>
        { e with observations := _filterAndSortObservations opts now [] e.observations }) }

/-- Embedding of `RetrievalService.retrieveByCategory`, catch boundary
included. -/
def retrieveByCategory (opts : RetrievalOptions) (now : ℤ) (kg : KnowledgeGraph)
    (category : String) (entityNames : List String) : CategoryResult :=
  match retrieveByCategoryBody opts now kg category entityNames with
  | .ok r => r
  | .error msg => { category := category, entities := [], error := some msg }

/-- The result object of `retrieveCriticalMemories`. -/
structure CriticalResult where
  entities : List Entity := []
  relations : List Relation := []
  error : Option String := none
  deriving DecidableEq

/-- The try-block of `retrieveCriticalMemories`: keep each entity's
observations with `is_critical === true`, drop entities left empty, and
keep the graph relations with `attributes.is_critical === true`; no
scoring, no truncation. -/
def retrieveCriticalBody (kg : KnowledgeGraph) (entityNames : List String) :
    Except String CriticalResult := do
  let entities ← fetchEntities kg entityNames
  let criticalEntities :=
    (entities.map (fun e =>
      { e with observations := e.observations.filter (fun o => o.is_critical) })).filter
      (fun e => !e.observations.isEmpty)
  let graph ← kg.exportGraph ()
  let relations := graph.relations.filter (fun rel =>
    match rel.attributes with
    | some a => a.is_critical
    | none => false)
  pure { entities := criticalEntities, relations := relations }

/-- Embedding of `RetrievalService.retrieveCriticalMemories`, catch
boundary included. -/
def retrieveCriticalMemories (kg : KnowledgeGraph) (entityNames : List String) :
    CriticalResult :=
  match retrieveCriticalBody kg entityNames with
  | .ok r => r
  | .error msg => { entities := [], relations := [], error := some msg }

/-! ## Retrieval lemmas -/

theorem exceptPure_eq {ε α : Type} (a : α) : (pure a : Except ε α) = Except.ok a := rfl

theorem exceptBind_ok {ε α β : Type} (a : α) (f : α → Except ε β) :
    (Except.ok a : Except ε α) >>= f = f a := rfl

theorem pairwise_take_sortDesc {α : Type} (key : α → ℚ) (l : List α) (n : ℕ) :
    List.Pairwise (fun x y => key y ≤ key x) ((sortDesc key l).take n) :=
  List.Pairwise.sublist (List.take_sublist n (sortDesc key l)) (pairwise_sortDesc key l)

theorem relevantBody_ok (opts : RetrievalOptions) (now : ℤ) (kg : KnowledgeGraph)
    (context : String) (targets : List String) (r : RetrievalResult)
    (h : retrieveRelevantBody opts now kg context targets = .ok r) :
    ∃ keywords entities relations, r = assembleRelevant opts now keywords entities relations := by
  unfold retrieveRelevantBody at h
  split at h
  · exact absurd h (by simp)
  · split at h
    · exact absurd h (by simp)
    · injection h with h2
      exact ⟨_, _, _, h2.symm⟩

theorem assembleRelevant_entities (opts : RetrievalOptions) (now : ℤ)
    (keywords : List String) (entities : List Entity) (relations : List Relation) :
    (assembleRelevant opts now keywords entities relations).entities =
      (topEntities opts now keywords entities).map
        (fun e =>
          { e with observations :=
              _filterAndSortObservations opts now keywords e.observations }) := rfl

theorem assembleRelevant_relations (opts : RetrievalOptions) (now : ℤ)
    (keywords : List String) (entities : List Entity) (relations : List Relation) :
    (assembleRelevant opts now keywords entities relations).relations =
      (sortDesc (fun r : ScoredRelation => r.score)
        (_scoreRelations opts now relations (topEntities opts now keywords entities))).take
        opts.maxRelations := rfl

theorem assembleRelevant_spec (opts : RetrievalOptions) (now : ℤ) (keywords : List String)
    (entities : List Entity) (relations : List Relation) :
    (assembleRelevant opts now keywords entities relations).entities.length ≤
      opts.maxEntities ∧
    (assembleRelevant opts now keywords entities relations).relations.length ≤
      opts.maxRelations ∧
    List.Pairwise (fun a b => b.score ≤ a.score)
      (assembleRelevant opts now keywords entities relations).entities ∧
    List.Pairwise (fun a b => b.score ≤ a.score)
      (assembleRelevant opts now keywords entities relations).relations := by
  refine ⟨?_, ?_, ?_, ?_⟩
  · rw [assembleRelevant_entities, List.length_map]
    exact List.length_take_le _ _
  · rw [assembleRelevant_relations]
    exact List.length_take_le _ _
  · rw [assembleRelevant_entities, List.pairwise_map]
    exact pairwise_take_sortDesc (fun e : ScoredEntity => e.score)
      (_scoreEntities opts now entities keywords) opts.maxEntities
  · rw [assembleRelevant_relations]
    exact pairwise_take_sortDesc (fun r : ScoredRelation => r.score)
      (_scoreRelations opts now relations
        (topEntities opts now keywords entities)) opts.maxRelations

theorem getEntitiesLoop_lift (p : PureKnowledgeGraph) (names : List String) :
    getEntitiesLoop (liftKG p) names = .ok (names.filterMap p.getEntity) := by
  have haux : ∀ (ns : List String) (acc : List Entity),
      ns.foldlM (getEntityStep (liftKG p)) acc = .ok (acc ++ ns.filterMap p.getEntity) := by
    intro ns
    induction ns with
    | nil => intro acc; rw [List.foldlM_nil]; simp [exceptPure_eq]
    | cons n ns ih =>
      intro acc
      rw [List.foldlM_cons]
      cases he : p.getEntity n with
      | none =>
        have hstep : getEntityStep (liftKG p) acc n = .ok acc := by
          simp [getEntityStep, liftKG, he, exceptBind_ok, exceptPure_eq]
        rw [hstep, exceptBind_ok, ih, List.filterMap_cons, he]
      | some ent =>
        have hstep : getEntityStep (liftKG p) acc n = .ok (acc ++ [ent]) := by
          simp [getEntityStep, liftKG, he, exceptBind_ok, exceptPure_eq]
        rw [hstep, exceptBind_ok, ih, List.filterMap_cons, he, List.append_assoc]
        rfl
  simpa [getEntitiesLoop] using haux names []

theorem fetchEntities_lift (p : PureKnowledgeGraph) (names : List String) :
    fetchEntities (liftKG p) names =
      .ok (if 0 < names.length then names.filterMap p.getEntity else p.graph.entities) := by
  unfold fetchEntities
  by_cases h : 0 < names.length
  · simp [h, getEntitiesLoop_lift]
  · simp [h, liftKG, exceptBind_ok, exceptPure_eq]

theorem filterAndSort_minConf (opts : RetrievalOptions) (now : ℤ)
    (keywords : List String) (observations : List Observation) :
    ∀ o ∈ _filterAndSortObservations opts now keywords observations,
      opts.minConfidence ≤ jsOrQ o.confidence 0 := by
  intro o ho
  unfold _filterAndSortObservations at ho
  split at ho
  · cases ho
  · have ho1 : o ∈ sortDesc (fun o => o.score)
        ((observations.filter
          (fun o => decide (opts.minConfidence ≤ jsOrQ o.confidence 0))).map
          (scoreObservation opts now keywords)) :=
      List.mem_of_mem_take ho
    have ho2 := (perm_sortDesc (fun o : Observation => o.score) _).mem_iff.mp ho1
    obtain ⟨pre, hpre, rfl⟩ := List.mem_map.mp ho2
    have hconf := (List.mem_filter.mp hpre).2
    exact of_decide_eq_true hconf

theorem filterAndSort_length (opts : RetrievalOptions) (now : ℤ)
    (keywords : List String) (observations : List Observation) :
    (_filterAndSortObservations opts now keywords observations).length ≤
      opts.maxObservationsPerEntity := by
  unfold _filterAndSortObservations
  split
  · simp
  · exact List.length_take_le _ _

theorem le_maxListInt (l : List ℤ) : ∀ t ∈ l, t ≤ maxListInt l := by
  induction l with
  | nil => intro t h; cases h
  | cons a as ih =>
    intro t h
    cases as with
    | nil =>
      rcases List.mem_singleton.mp h with rfl
      simp [maxListInt]
    | cons b bs =>
      rcases List.mem_cons.mp h with rfl | h2
      · simp [maxListInt]
      · exact le_trans (ih t h2) (by simp [maxListInt])

/-! ## Claim C6: retrieval truncation and ordering -/

/-- C6: every result of `retrieveRelevantMemories` (including the
degraded result of the catch boundary) carries at most `maxEntities`
entities and at most `maxRelations` relations, both lists sorted by
descending score; the defaults are 10 and 20. -/
theorem retrieval_truncation_sorted :
    (∀ (opts : RetrievalOptions) (now : ℤ) (kg : KnowledgeGraph) (context : String)
        (targets : List String),
      (retrieveRelevantMemories opts now kg context targets).entities.length ≤
        opts.maxEntities ∧
      (retrieveRelevantMemories opts now kg context targets).relations.length ≤
        opts.maxRelations ∧
      List.Pairwise (fun a b => b.score ≤ a.score)
        (retrieveRelevantMemories opts now kg context targets).entities ∧
      List.Pairwise (fun a b => b.score ≤ a.score)
        (retrieveRelevantMemories opts now kg context targets).relations) ∧
    defaultRetrievalOptions.maxEntities = 10 ∧
    defaultRetrievalOptions.maxRelations = 20 := by
  refine ⟨?_, rfl, rfl⟩
  intro opts now kg context targets
  unfold retrieveRelevantMemories
  cases hbody : retrieveRelevantBody opts now kg context targets with
  | error msg => simp
  | ok r =>
    obtain ⟨kws, ents, rels, rfl⟩ := relevantBody_ok opts now kg context targets r hbody
    exact assembleRelevant_spec opts now kws ents rels

/-! ## Claim C7: the recency score -/

/-- The recency formula of the claim, as a function of the day count
and the window. -/
def recencyOfDays (d w : ℚ) : ℚ := max 0 (1 - d / w)

/-- C7: the recency score equals `max(0, 1 - daysSince/recencyWindow)`
computed from the most recent positive observation timestamp, is 0 when
the entity has no (positive-)timestamped observations, strictly
decreases in `daysSince` below the window (the window being positive),
is exactly 0 from the window on, and the default window is 30 days. -/
theorem recency_score_spec :
    (∀ (opts : RetrievalOptions) (now : ℤ) (e : Entity),
      (validTimestamps e ≠ [] →
        _calculateRecencyScore opts now e =
          recencyOfDays (((now - maxListInt (validTimestamps e) : ℤ) : ℚ) / 86400000)
            opts.recencyWindow) ∧
      (validTimestamps e = [] → _calculateRecencyScore opts now e = 0) ∧
      (∀ t ∈ validTimestamps e, t ≤ maxListInt (validTimestamps e))) ∧
    (∀ (w d1 d2 : ℚ), 0 < w → d1 < d2 → d2 < w →
      recencyOfDays d2 w < recencyOfDays d1 w) ∧
    (∀ (w d : ℚ), 0 < w → w ≤ d → recencyOfDays d w = 0) ∧
    defaultRetrievalOptions.recencyWindow = 30 := by
  refine ⟨?_, ?_, ?_, rfl⟩
  · intro opts now e
    refine ⟨?_, ?_, le_maxListInt (validTimestamps e)⟩
    · intro hne
      have hobs : e.observations.isEmpty = false := by
        cases hoe : e.observations with
        | nil => exact absurd (by simp [validTimestamps, hoe]) hne
        | cons a as => simp [hoe]
      have hts : (validTimestamps e).isEmpty = false := by
        cases hv : validTimestamps e with
        | nil => exact absurd hv hne
        | cons a as => simp
      simp [_calculateRecencyScore, hobs, hts, recencyOfDays]
    · intro hnil
      by_cases hobs : e.observations.isEmpty
      · simp [_calculateRecencyScore, hobs]
      · simp [_calculateRecencyScore, hobs, hnil]
  · intro w d1 d2 hw h12 h2w
    have hlt : d1 / w < d2 / w := by
      rw [div_lt_div_iff_of_pos_right hw]
      exact h12
    have h2pos : 0 < 1 - d2 / w := by
      rw [sub_pos, div_lt_one hw]
      exact h2w
    have h1pos : 0 < 1 - d1 / w := lt_trans h2pos (by linarith)
    unfold recencyOfDays
    rw [max_eq_right (le_of_lt h2pos), max_eq_right (le_of_lt h1pos)]
    linarith
  · intro w d hw hwd
    have h1 : 1 ≤ d / w := (one_le_div hw).mpr hwd
    unfold recencyOfDays
    exact max_eq_left (by linarith)

/-- The C7 witness entity: one observation one day old (at the chosen
`now`) and one untimestamped observation. -/
def recEnt : Entity :=
  { name := "R", observations :=
      [{ content := "seen", timestamp := some 86400000 },
       { content := "undated" }] }

/-- Witness for C7: at `now` two days after the epoch the witness
entity scores `recencyOfDays 1 30 = 29/30`, and a day count at the
window yields 0. -/
theorem recency_score_spec_witness :
    _calculateRecencyScore defaultRetrievalOptions (2 * 86400000) recEnt = 29 / 30 ∧
    recencyOfDays 30 30 = 0 := by
  constructor
  · have h := ((recency_score_spec.1 defaultRetrievalOptions (2 * 86400000) recEnt).1
      (by decide))
    rw [h]
    decide
  · exact recency_score_spec.2.2.1 30 30 (by decide) (le_refl 30)

theorem retrieveCriticalBody_lift (p : PureKnowledgeGraph) (names : List String) :
    retrieveCriticalBody (liftKG p) names =
      .ok { entities :=
              ((if 0 < names.length then names.filterMap p.getEntity
                else p.graph.entities).map (fun e =>
                  { e with observations := e.observations.filter (fun o => o.is_critical) })).filter
                (fun e => !e.observations.isEmpty)
            relations := p.graph.relations.filter (fun rel =>
              match rel.attributes with
              | some a => a.is_critical
              | none => false) } := by
  unfold retrieveCriticalBody
  rw [fetchEntities_lift]
  simp [exceptBind_ok, exceptPure_eq, liftKG]

theorem retrieveByCategoryBody_lift (opts : RetrievalOptions) (now : ℤ)
    (p : PureKnowledgeGraph) (category : String) (names : List String) :
    retrieveByCategoryBody opts now (liftKG p) category names =
      .ok { category := category
            entities :=
              (((if 0 < names.length then names.filterMap p.getEntity
                 else p.graph.entities).map (fun e =>
                   { e with observations :=
                       e.observations.filter (fun o => o.category == some category) })).filter
                (fun e => !e.observations.isEmpty)).map (fun e =>
                  { e with observations :=
                      _filterAndSortObservations opts now [] e.observations }) } := by
  unfold retrieveByCategoryBody
  rw [fetchEntities_lift]
  simp [exceptBind_ok, exceptPure_eq]

/-! ## Claim C8: critical-only retrieval -/

/-- The critical observation of the C8 example. -/
def critObs : Observation :=
  { content := "allergic to penicillin", is_critical := true }

/-- The non-critical observation of the C8 example. -/
def plainObs : Observation :=
  { content := "likes jazz" }

/-- The example entity of C8. -/
def critEntityA : Entity :=
  { name := "A", entityType := "Person", observations := [critObs, plainObs] }

/-- The example collaborator of C8: one entity with one critical and
one non-critical observation. -/
def critKG : PureKnowledgeGraph := { graph := { entities := [critEntityA] } }

/-- C8: with an error-free collaborator, `retrieveCriticalMemories`
returns exactly the fetched entities restricted to their
`is_critical === true` observations (entities left with none are
dropped), and exactly the relations with `attributes.is_critical ===
true`, with no scoring, ranking or truncation and no error.  The closed
conjunct runs the example of the claim: an entity with one critical and
one non-critical observation yields only the critical one. -/
theorem critical_retrieval_spec :
    (∀ (p : PureKnowledgeGraph) (names : List String),
      retrieveCriticalMemories (liftKG p) names =
        { entities :=
            ((if 0 < names.length then names.filterMap p.getEntity
              else p.graph.entities).map (fun e =>
                { e with observations := e.observations.filter (fun o => o.is_critical) })).filter
              (fun e => !e.observations.isEmpty)
          relations := p.graph.relations.filter (fun rel =>
            match rel.attributes with
            | some a => a.is_critical
            | none => false)
          error := none }) ∧
    retrieveCriticalMemories (liftKG critKG) [] =
      { entities := [{ name := "A", entityType := "Person", observations := [critObs] }]
        relations := [] } := by
  constructor
  · intro p names
    unfold retrieveCriticalMemories
    rw [retrieveCriticalBody_lift]
  · decide

/-! ## Claim C9: the operation boundaries -/

/-- C9: internal failures never escape the operations: the compression
catch converts any error to the empty list, and each retrieval catch
converts any error of its try-block to a result with empty entity and
relation lists carrying the error message. -/
theorem error_boundaries :
    (∀ e, catchToEmpty (.error e) = []) ∧
    (∀ (opts : RetrievalOptions) (now : ℤ) (kg : KnowledgeGraph) (context : String)
        (targets : List String) (msg : String),
      retrieveRelevantBody opts now kg context targets = .error msg →
      retrieveRelevantMemories opts now kg context targets =
        { entities := [], relations := [], error := some msg }) ∧
    (∀ (opts : RetrievalOptions) (now : ℤ) (kg : KnowledgeGraph) (category : String)
        (names : List String) (msg : String),
      retrieveByCategoryBody opts now kg category names = .error msg →
      retrieveByCategory opts now kg category names =
        { category := category, entities := [], error := some msg }) ∧
    (∀ (kg : KnowledgeGraph) (names : List String) (msg : String),
      retrieveCriticalBody kg names = .error msg →
      retrieveCriticalMemories kg names =
        { entities := [], relations := [], error := some msg }) := by
  refine ⟨fun e => rfl, ?_, ?_, ?_⟩
  · intro opts now kg context targets msg h
    unfold retrieveRelevantMemories
    rw [h]
  · intro opts now kg category names msg h
    unfold retrieveByCategory
    rw [h]
  · intro kg names msg h
    unfold retrieveCriticalMemories
    rw [h]

/-- A collaborator whose every call fails. -/
def failingKG : KnowledgeGraph :=
  { getEntity := fun _ => .error "graph unavailable"
    search := fun _ => .error "graph unavailable"
    getEntityRelations := fun _ => .error "graph unavailable"
    exportGraph := fun _ => .error "graph unavailable" }

/-- Witness for C9: with the failing collaborator the relevant-memory
retrieval degrades to empty lists with the error recorded, and an
erroring compression try-block yields the empty list. -/
theorem error_boundaries_witness :
    catchToEmpty (.error "boom") = [] ∧
    retrieveRelevantMemories defaultRetrievalOptions 0 failingKG "some context" ["A"] =
      { entities := [], relations := [], error := some "graph unavailable" } :=
  ⟨error_boundaries.1 "boom",
   error_boundaries.2.1 defaultRetrievalOptions 0 failingKG "some context" ["A"]
     "graph unavailable" (by rfl)⟩

/-! ## Claim C10: category retrieval filters and truncates -/

/-- C10: category retrieval applies the same per-entity observation
processing as general retrieval: every returned observation passes the
`(confidence || 0) >= minConfidence` filter and each entity keeps at
most `maxObservationsPerEntity` observations; the defaults are 3
and 5. -/
theorem category_retrieval_filter :
    (∀ (opts : RetrievalOptions) (now : ℤ) (p : PureKnowledgeGraph)
        (category : String) (names : List String),
      ∀ e ∈ (retrieveByCategory opts now (liftKG p) category names).entities,
        (∀ o ∈ e.observations, opts.minConfidence ≤ jsOrQ o.confidence 0) ∧
        e.observations.length ≤ opts.maxObservationsPerEntity) ∧
    defaultRetrievalOptions.minConfidence = 3 ∧
    defaultRetrievalOptions.maxObservationsPerEntity = 5 := by
  refine ⟨?_, rfl, rfl⟩
  intro opts now p category names e he
  unfold retrieveByCategory at he
  rw [retrieveByCategoryBody_lift] at he
  obtain ⟨e0, he0, rfl⟩ := List.mem_map.mp he
  exact ⟨filterAndSort_minConf opts now [] e0.observations,
    filterAndSort_length opts now [] e0.observations⟩

/-- High-confidence preference observation of the C10 witness. -/
def catObsGood : Observation :=
  { content := "likes tea", category := some "preference", confidence := some 5 }

/-- Low-confidence preference observation of the C10 witness. -/
def catObsLow : Observation :=
  { content := "maybe tea", category := some "preference", confidence := some 1 }

/-- Off-category observation of the C10 witness. -/
def catObsOther : Observation :=
  { content := "named Bea", category := some "identity", confidence := some 5 }

/-- The C10 witness entity. -/
def catEntityB : Entity :=
  { name := "B", entityType := "Person",
    observations := [catObsGood, catObsLow, catObsOther] }

/-- The C10 witness collaborator. -/
def catKG : PureKnowledgeGraph := { graph := { entities := [catEntityB] } }

/-- The entity the C10 witness run returns: only the high-confidence
preference observation survives, scored 0.3. -/
def catResultEnt : Entity :=
  { name := "B", entityType := "Person",
    observations := [{ catObsGood with score := 3 / 10 }] }

/-- Witness for C10: the category-retrieval guarantees instantiated on
the concrete run. -/
theorem category_retrieval_filter_witness :
    (∀ o ∈ catResultEnt.observations,
      defaultRetrievalOptions.minConfidence ≤ jsOrQ o.confidence 0) ∧
    catResultEnt.observations.length ≤ defaultRetrievalOptions.maxObservationsPerEntity :=
  category_retrieval_filter.1 defaultRetrievalOptions 0 catKG "preference" []
    catResultEnt (by decide)

end CMem
